import Mathlib

/-!
Verification development for the AgnirathTrackTesting velocity-profile
optimizer. The definitions below are a shallow embedding of the Python
sources under src/optim (config.py, state.py, weather.py, car.py,
constraints.py, profiles.py, main.py): numpy arrays become lists of reals,
vectorized arithmetic becomes zipWith/map, the unbounded thermal while-loop
of car.py becomes a fuel-indexed recursion returning Option (none models a
loop that is still running when the fuel is exhausted), and numpy integer
indexing (including its negative-index wraparound and its IndexError)
becomes npGet.
-/

namespace Track

/-! Configuration constants, from src/optim/config.py. -/

/-- Battery capacity in Wh (config.py). -/
def BatteryCapacity : ℝ := 3055

/-- Deep discharge cap fraction (config.py). -/
noncomputable def DeepDischargeCap : ℝ := 0.2

/-- Outer radius of the wheel (config.py). -/
noncomputable def R_Out : ℝ := 0.2785

/-- Vehicle mass in kg (config.py). -/
def Mass : ℝ := 290

/-- Rolling resistance coefficient (config.py). -/
noncomputable def ZeroSpeedCrr : ℝ := 0.0045

/-- Drag area; config.py assigns Cd * FrontalArea and then reassigns the
final value 0.12, which is the value the program runs with. -/
noncomputable def CDA : ℝ := 0.12

/-- Solar panel area in square meters (config.py). -/
noncomputable def PanelArea : ℝ := 4.9

/-- Solar panel efficiency (config.py). -/
noncomputable def PanelEfficiency : ℝ := 0.21

/-- Bus voltage 4.2 * 38 (config.py). -/
noncomputable def BusVoltage : ℝ := 4.2 * 38

/-- Air density (config.py). -/
noncomputable def AirDensity : ℝ := 1.192

/-- Gravitational acceleration (config.py). -/
noncomputable def GravityAcc : ℝ := 9.81

/-- Ambient temperature in kelvin (config.py). -/
def Ta : ℝ := 295

/-- Maximum velocity in m/s (config.py). -/
def MaxVelocity : ℝ := 35

/-- Maximum current in ampere (config.py). -/
noncomputable def MaxCurrent : ℝ := 12.3

/-! Run state, from src/optim/state.py. -/

/-- Initial guess for interior speeds; state.py assigns 25 and then
reassigns 32, so the program runs with 32. -/
def InitialGuessVelocity : ℝ := 32

/-- Race start time in seconds (state.py). -/
def StartTime : ℝ := 9 * 3600

/-- Initial battery charge, BatteryCapacity * 1 (state.py). -/
def InitialBatteryCapacity : ℝ := BatteryCapacity * 1

/-! Derived constants, from src/optim/constraints.py and src/optim/car.py. -/

/-- Safety reserve BatteryCapacity * DeepDischargeCap (constraints.py). -/
noncomputable def SafeBatteryLevel : ℝ := BatteryCapacity * DeepDischargeCap

/-- Hard power cap MaxCurrent * BusVoltage (constraints.py). -/
noncomputable def MaxPower : ℝ := MaxCurrent * BusVoltage

/-- Numerical floor 10 ** -8 (constraints.py and profiles.py). -/
noncomputable def EPSILON : ℝ := (10 : ℝ) ^ (-8 : ℤ)

/-- Frictional torque constant R_Out * Mass * GravityAcc * ZeroSpeedCrr
(car.py). -/
noncomputable def _frictional_tou : ℝ := R_Out * Mass * GravityAcc * ZeroSpeedCrr

/-- Drag coefficient 0.5 * CDA * AirDensity * R_Out ** 3 (car.py). -/
noncomputable def _drag_coeff : ℝ := 0.5 * CDA * AirDensity * R_Out ^ 3

/-- Drag torque coefficient _drag_coeff / R_Out ** 2 (car.py). -/
noncomputable def _drag_coeff_wR2 : ℝ := _drag_coeff / R_Out ^ 2

/-- Slope power coefficient Mass * GravityAcc (car.py). -/
noncomputable def _slope_coeff : ℝ := Mass * GravityAcc

/-- Windage loss coefficient (170.4 * 10 ** -6) / R_Out ** 2 (car.py). -/
noncomputable def _windage_losses_coeff_wR2 : ℝ := 170.4 * (10 : ℝ) ^ (-6 : ℤ) / R_Out ^ 2

/-! List helpers mirroring the numpy primitives used by the sources. -/

/-- Running sums with accumulator, the recursion behind numpy cumsum. -/
def cumsumFrom (acc : ℝ) : List ℝ → List ℝ
  | [] => []
  | x :: xs => (acc + x) :: cumsumFrom (acc + x) xs

/-- numpy cumsum: entry i is the sum of the first i+1 entries. -/
def cumsum (xs : List ℝ) : List ℝ := cumsumFrom 0 xs

/-- numpy min of a vector; numpy raises on an empty vector, which never
happens on the code paths modelled here, so 0 stands in for that case. -/
noncomputable def npmin : List ℝ → ℝ
  | [] => 0
  | x :: xs => xs.foldl min x

/-- numpy max of a vector; same convention for the empty case as npmin. -/
noncomputable def npmax : List ℝ → ℝ
  | [] => 0
  | x :: xs => xs.foldl max x

/-- numpy integer indexing into a 1-D array: an index in [0, n) reads
directly, an index in [-n, 0) silently wraps around to n + i, and anything
else raises IndexError, modelled as none. -/
def npGet (xs : List ℝ) (i : ℤ) : Option ℝ :=
  if 0 ≤ i ∧ i < (xs.length : ℤ) then xs[i.toNat]?
  else if -(xs.length : ℤ) ≤ i ∧ i < 0 then xs[((xs.length : ℤ) + i).toNat]?
  else none

/-! Environment lookup, from src/optim/weather.py. The three series are
loaded from a CSV outside the repository, so they are parameters here. -/

/-- The loaded wind and irradiance series (weather.py module data). -/
structure EnvSeries where
  ghi : List ℝ
  wind_speed : List ℝ
  wind_direction : List ℝ

/-- Sampling step of the series in minutes (weather.py). -/
def STEP : ℝ := 5

/-- Series alignment offset StartTime/60 - 8*60 (weather.py). -/
noncomputable def INIT_TIME : ℝ := StartTime / 60 - 8 * 60

/-- Net panel factor PanelArea * PanelEfficiency (weather.py). -/
noncomputable def NET_PANEL_FACTOR : ℝ := PanelArea * PanelEfficiency

/-- Bucket index floor_divide(minutes + INIT_TIME, STEP) cast to int
(weather.py). -/
noncomputable def np_time_index (m : ℝ) : ℤ := ⌊(m + INIT_TIME) / STEP⌋

/-- get_solar_power (weather.py): index the ghi series at the bucket of
each minute value and scale by NET_PANEL_FACTOR. -/
noncomputable def get_solar_power (env : EnvSeries) (input_minutes : List ℝ) :
    Option (List ℝ) := do
  let g ← input_minutes.mapM (fun m => npGet env.ghi (np_time_index m))
  pure (g.map (fun x => x * NET_PANEL_FACTOR))

/-- get_wind_data (weather.py): index the wind speed and wind direction
series at the bucket of each minute value. -/
noncomputable def get_wind_data (env : EnvSeries) (input_minutes : List ℝ) :
    Option (List ℝ × List ℝ) := do
  let ws ← input_minutes.mapM (fun m => npGet env.wind_speed (np_time_index m))
  let wd ← input_minutes.mapM (fun m => npGet env.wind_direction (np_time_index m))
  pure (ws, wd)

/-! Power model, from src/optim/car.py. -/

/-- One pass of the winding temperature loop body of calculate_power
(car.py): from a per-segment state (tou, speed2, Tw_i) compute the
magnetic remanence, phase current, winding resistance, copper loss Pc,
eddy loss Pe and the updated temperature Tw; returns (Tw, Pc, Pe). -/
noncomputable def thermal_step (p : ℝ × ℝ) (Tw_i : ℝ) : ℝ × ℝ × ℝ :=
  let B := 1.6716 - 0.0006 * (Ta + Tw_i)
  let i := 0.561 * B * p.1
  let resistance := 0.00022425 * Tw_i - 0.00820525
  let Pc := 3 * i ^ 2 * resistance
  let Pe := 9.602 * (10 : ℝ) ^ (-6 : ℤ) * (B / R_Out) ^ 2 / resistance * p.2
  let Tw := 0.455 * (Pc + Pe) + Ta
  (Tw, Pc, Pe)

open Classical in
/-- The while True loop of calculate_power (car.py), vectorized over the
segments exactly as in the source: recompute the body for every segment;
if every segment satisfies abs (Tw - Tw_i) < 0.001 stop and report the
triples of this pass, otherwise keep the old temperature on converged
segments (np.where(cond, Tw_i, Tw)) and iterate. The source loop has no
iteration cap; the fuel argument only truncates the unbounded recursion,
and none means the loop is still running after that many passes. -/
noncomputable def thermal_loop (params : List (ℝ × ℝ)) :
    ℕ → List ℝ → Option (List (ℝ × ℝ × ℝ))
  | 0, _ => none
  | n + 1, Twis =>
    let res := List.zipWith thermal_step params Twis
    if ∀ q ∈ List.zip res Twis, |q.1.1 - q.2| < 0.001 then some res
    else thermal_loop params n
      (List.zipWith (fun r T => if |r.1 - T| < 0.001 then T else r.1) res Twis)

/-- Drag torque vector _drag_coeff_wR2 * speed2 (car.py). -/
noncomputable def drag_tou_list (speed2 : List ℝ) : List ℝ :=
  speed2.map (fun s2 => _drag_coeff_wR2 * s2)

/-- Wheel torque vector _frictional_tou * cos(slope) + drag_tou (car.py).
The commented-out wind-coupled drag formula of the source is not part of
the executed code and is not modelled. -/
noncomputable def tou_list (slope speed2 : List ℝ) : List ℝ :=
  List.zipWith (fun sl d => _frictional_tou * Real.cos sl + d) slope (drag_tou_list speed2)

/-- calculate_power (car.py): returns (clipped net power, output power)
wrapped in Option because the embedded thermal loop is fuel-indexed. The
wind arguments ws and wd are accepted, as in the source signature, and are
not used by any executed expression. -/
noncomputable def calculate_power (speed acceleration slope dir ws wd : List ℝ)
    (fuel : ℕ) : Option (List ℝ × List ℝ) :=
  let speed2 := speed.map (fun s => s ^ 2)
  let tou := tou_list slope speed2
  match thermal_loop (List.zip tou speed2) fuel (tou.map (fun _ => Ta)) with
  | none => none
  | some res =>
    let Pc := res.map (fun r => r.2.1)
    let Pe := res.map (fun r => r.2.2)
    let P_out := List.zipWith (fun t s => t * s / R_Out) tou speed
    let Pw := speed2.map (fun s2 => s2 * _windage_losses_coeff_wR2)
    let P_acc := List.zipWith (fun c s => c * s)
      (List.zipWith (fun a sl => Mass * a + _slope_coeff * Real.sin sl) acceleration slope)
      speed
    let P_net := List.zipWith (fun a b => a + b) P_out
      (List.zipWith (fun a b => a + b)
        (List.zipWith (fun a b => a + b) (List.zipWith (fun a b => a + b) Pw Pc) Pe)
        P_acc)
    some (P_net.map (fun x => max x 0), P_out)

/-! Constraint evaluator, from src/optim/constraints.py. -/

/-- Per-segment average speed (v[:-1] + v[1:]) / 2 (constraints.py). -/
noncomputable def avg_speed_list (v : List ℝ) : List ℝ :=
  List.zipWith (fun a b => (a + b) / 2) v.dropLast v.tail

/-- Per-segment time dx / (avg_speed + EPSILON) (constraints.py). -/
noncomputable def seg_dt (v dx : List ℝ) : List ℝ :=
  List.zipWith (fun x s => x / (s + EPSILON)) dx (avg_speed_list v)

/-- Per-segment acceleration (stop_speeds - start_speeds) / dt
(constraints.py). -/
noncomputable def seg_acceleration (v dx : List ℝ) : List ℝ :=
  List.zipWith (fun d t => d / t)
    (List.zipWith (fun a b => b - a) v.dropLast v.tail) (seg_dt v dx)

/-- Cumulative elapsed minutes dt.cumsum() / 60 (constraints.py). -/
noncomputable def seg_minutes (v dx : List ℝ) : List ℝ :=
  (cumsum (seg_dt v dx)).map (fun t => t / 60)

/-- Battery trajectory of battery_acc_constraint_func (constraints.py
lines 32-33): InitialBatteryCapacity - ((P - SolP) * dt).cumsum() / 3600
- SafeBatteryLevel. -/
noncomputable def constraint_battery_profile (P SolP dt : List ℝ) : List ℝ :=
  ((cumsum (List.zipWith (fun d t => d * t)
      (List.zipWith (fun p s => p - s) P SolP) dt)).map (fun e => e / 3600)).map
    (fun e => InitialBatteryCapacity - e - SafeBatteryLevel)

/-- battery_acc_constraint_func (constraints.py): derive per-segment
timing, query wind, power and solar, and return the two feasibility
margins (min of the battery trajectory, MaxPower - max net power). -/
noncomputable def battery_acc_constraint_func (env : EnvSeries) (fuel : ℕ)
    (v dx ds dir : List ℝ) : Option (ℝ × ℝ) := do
  let dt := seg_dt v dx
  let minutes := seg_minutes v dx
  let wind ← get_wind_data env minutes
  let pr ← calculate_power (avg_speed_list v) (seg_acceleration v dx) ds dir
    wind.1 wind.2 fuel
  let SolP ← get_solar_power env minutes
  pure (npmin (constraint_battery_profile pr.1 SolP dt), MaxPower - npmax pr.1)

/-- objective (constraints.py): np.sum(2 * dx / (v[:-1] + v[1:] + EPSILON)). -/
noncomputable def objective (velocity_profile dx : List ℝ) : ℝ :=
  (List.zipWith (fun d s => 2 * d / s) dx
    (List.zipWith (fun a b => a + b + EPSILON)
      velocity_profile.dropLast velocity_profile.tail)).sum

/-- get_bounds (constraints.py): [(0, 0)] + [(0.01, MaxVelocity)]*(N-2)
+ [(0, 0)]. -/
noncomputable def get_bounds (N : ℕ) : List (ℝ × ℝ) :=
  [(0, 0)] ++ List.replicate (N - 2) (0.01, MaxVelocity) ++ [(0, 0)]

/-- Initial velocity profile of run_optimise (main.py): zero at both ends
and InitialGuessVelocity at every interior position. -/
def initial_velocity_profile (N : ℕ) : List ℝ :=
  [0] ++ List.replicate (N - 2) InitialGuessVelocity ++ [0]

/-! Profile reporter, from src/optim/profiles.py. -/

/-- Battery level sequence of extract_profiles (profiles.py lines 26-32),
taken after the anchored initial entry and before the conversion to
percentage: InitialBatteryCapacity - (energy_consumption.cumsum() -
energy_gain.cumsum()), with energy_consumption = P * dt / 3600 and
energy_gain = SolP * dt / 3600. -/
noncomputable def reporter_battery_levels (P SolP dt : List ℝ) : List ℝ :=
  (List.zipWith (fun a b => a - b)
    (cumsum (List.zipWith (fun p t => p * t / 3600) P dt))
    (cumsum (List.zipWith (fun s t => s * t / 3600) SolP dt))).map
    (fun e => InitialBatteryCapacity - e)

/-! Claim-side restatements, written from the words of the claims so they
can be compared with the code-side definitions above. -/

/-- Battery margin as worded in claim C1: the minimum over segments i of
the initial battery charge minus the running cumulative sum of
(net_power - solar_power) * segment_time / 3600 minus the safety reserve
BatteryCapacity * DeepDischargeCap. -/
noncomputable def claim_battery_margin (P SolP dt : List ℝ) : ℝ :=
  npmin ((List.range dt.length).map (fun i =>
    InitialBatteryCapacity -
      (∑ j in Finset.range (i + 1),
        (P.getD j 0 - SolP.getD j 0) * dt.getD j 0 / 3600) -
      BatteryCapacity * DeepDischargeCap))

/-- Power margin as worded in claim C1: MaxCurrent * BusVoltage minus the
maximum net power over all segments. -/
noncomputable def claim_power_margin (P : List ℝ) : ℝ :=
  MaxCurrent * BusVoltage - npmax P

/-- Wheel torque for a single segment whose slope is zero and whose speed
is 1000, the failing input used to exercise the divergent thermal loop. -/
noncomputable def divergent_tou : ℝ := _frictional_tou + _drag_coeff_wR2 * 1000 ^ 2

end Track

namespace Track

/-! General lemmas about the list helpers. -/

lemma length_cumsumFrom (xs : List ℝ) : ∀ a : ℝ, (cumsumFrom a xs).length = xs.length := by
  induction xs with
  | nil => intro a; rfl
  | cons x xs ih => intro a; simp [cumsumFrom, ih]

lemma length_cumsum (xs : List ℝ) : (cumsum xs).length = xs.length :=
  length_cumsumFrom xs 0

lemma getElem_cumsumFrom (xs : List ℝ) : ∀ (a : ℝ) (i : ℕ)
    (h : i < (cumsumFrom a xs).length),
    (cumsumFrom a xs)[i] = a + ∑ j in Finset.range (i + 1), xs.getD j 0 := by
  induction xs with
  | nil => intro a i h; simp [cumsumFrom] at h
  | cons x xs ih =>
    intro a i h
    match i with
    | 0 => simp [cumsumFrom]
    | i + 1 =>
      have h2 : i < (cumsumFrom (a + x) xs).length := by
        simpa [cumsumFrom, length_cumsumFrom] using h
      have := ih (a + x) i h2
      simp only [cumsumFrom, List.getElem_cons_succ, this]
      rw [Finset.sum_range_succ' (fun j => (x :: xs).getD j 0) (i + 1)]
      simp [Finset.sum_range_succ]
      ring

lemma getElem_cumsum (xs : List ℝ) (i : ℕ) (h : i < (cumsum xs).length) :
    (cumsum xs)[i] = ∑ j in Finset.range (i + 1), xs.getD j 0 := by
  simp only [cumsum] at h ⊢
  rw [getElem_cumsumFrom xs 0 i h, zero_add]

lemma getD_zipWith (f : ℝ → ℝ → ℝ) (xs ys : List ℝ) (i : ℕ)
    (h1 : i < xs.length) (h2 : i < ys.length) :
    (List.zipWith f xs ys).getD i 0 = f (xs.getD i 0) (ys.getD i 0) := by
  have hz : i < (List.zipWith f xs ys).length := by
    simp [List.length_zipWith]; omega
  rw [List.getD_eq_getElem _ _ hz, List.getD_eq_getElem _ _ h1,
    List.getD_eq_getElem _ _ h2, List.getElem_zipWith]

lemma sum_zipWith (f : ℝ → ℝ → ℝ) : ∀ xs ys : List ℝ,
    (List.zipWith f xs ys).sum =
      ∑ i in Finset.range (min xs.length ys.length), f (xs.getD i 0) (ys.getD i 0) := by
  intro xs
  induction xs with
  | nil => intro ys; simp
  | cons x xs ih =>
    intro ys
    match ys with
    | [] => simp
    | y :: ys =>
      have hm : min (x :: xs).length (y :: ys).length =
          min xs.length ys.length + 1 := by
        simp [Nat.succ_min_succ]
      rw [hm, Finset.sum_range_succ'
        (fun i => f ((x :: xs).getD i 0) ((y :: ys).getD i 0))]
      simp only [List.zipWith, List.sum_cons, List.getD_cons_succ, List.getD_cons_zero, ih]
      ring

lemma EPSILON_pos : 0 < EPSILON := by
  rw [EPSILON]; positivity

lemma getD_nonneg_of_forall (v : List ℝ) (hv : ∀ s ∈ v, 0 ≤ s) (j : ℕ) :
    0 ≤ v.getD j 0 := by
  rcases lt_or_le j v.length with hj | hj
  · rw [List.getD_eq_getElem _ _ hj]; exact hv _ (List.getElem_mem hj)
  · rw [List.getD_eq_default _ _ hj]

lemma getD_set_le (v : List ℝ) (i : ℕ) (x : ℝ) (hx : v.getD i 0 ≤ x)
    (hnn : ∀ j, 0 ≤ v.getD j 0) : ∀ j, v.getD j 0 ≤ (v.set i x).getD j 0 := by
  intro j
  rcases lt_or_le j v.length with hj | hj
  · have hj2 : j < (v.set i x).length := by rw [List.length_set]; exact hj
    rw [List.getD_eq_getElem _ _ hj, List.getD_eq_getElem _ _ hj2, List.getElem_set]
    by_cases hij : i = j
    · subst hij; rw [List.getD_eq_getElem _ _ hj] at hx; simpa using hx
    · simp [hij]
  · have hj2 : (v.set i x).length ≤ j := by rw [List.length_set]; exact hj
    rw [List.getD_eq_default _ _ hj, List.getD_eq_default _ _ hj2]

lemma getD_set_self (v : List ℝ) (i : ℕ) (x : ℝ) (hi : i < v.length) :
    (v.set i x).getD i 0 = x := by
  have hi2 : i < (v.set i x).length := by rw [List.length_set]; exact hi
  rw [List.getD_eq_getElem _ _ hi2, List.getElem_set, if_pos rfl]

lemma getD_set_ne (v : List ℝ) (i j : ℕ) (x : ℝ) (hij : i ≠ j) :
    (v.set i x).getD j 0 = v.getD j 0 := by
  rcases lt_or_le j v.length with hj | hj
  · have hj2 : j < (v.set i x).length := by rw [List.length_set]; exact hj
    rw [List.getD_eq_getElem _ _ hj, List.getD_eq_getElem _ _ hj2, List.getElem_set,
      if_neg hij]
  · have hj2 : (v.set i x).length ≤ j := by rw [List.length_set]; exact hj
    rw [List.getD_eq_default _ _ hj, List.getD_eq_default _ _ hj2]

/-! The objective as an indexed sum over segments. -/

lemma objective_eq_sum (v dx : List ℝ) (h : dx.length = v.length - 1) :
    objective v dx = ∑ i in Finset.range (v.length - 1),
      2 * dx.getD i 0 / (v.getD i 0 + v.getD (i + 1) 0 + EPSILON) := by
  rw [objective, sum_zipWith]
  have hlen : min dx.length (List.zipWith (fun a b => a + b + EPSILON)
      v.dropLast v.tail).length = v.length - 1 := by
    simp [List.length_zipWith, List.length_dropLast, List.length_tail, h]
  rw [hlen]
  apply Finset.sum_congr rfl
  intro i hi
  rw [Finset.mem_range] at hi
  have h1 : i < v.dropLast.length := by rw [List.length_dropLast]; exact hi
  have h2 : i < v.tail.length := by rw [List.length_tail]; exact hi
  rw [getD_zipWith _ _ _ _ h1 h2]
  have hv1 : i < v.length := by omega
  have hv2 : i + 1 < v.length := by omega
  have e1 : v.dropLast.getD i 0 = v.getD i 0 := by
    rw [List.getD_eq_getElem _ _ h1, List.getD_eq_getElem _ _ hv1, List.getElem_dropLast]
  have e2 : v.tail.getD i 0 = v.getD (i + 1) 0 := by
    rw [List.getD_eq_getElem _ _ h2, List.getD_eq_getElem _ _ hv2, List.getElem_tail]
  rw [e1, e2]

end Track

namespace Track

/-- C2: for every velocity profile v of length N >= 2 and segment-length
vector dx of length N-1, the objective equals the sum over segments i of
2 * dx[i] / (v[i] + v[i+1] + EPSILON), with EPSILON = 10 ** -8. -/
theorem C2_objective_formula (N : ℕ) (v dx : List ℝ) (hv : v.length = N)
    (hdx : dx.length = N - 1) (hN : 2 ≤ N) :
    objective v dx = ∑ i in Finset.range (N - 1),
      2 * dx.getD i 0 / (v.getD i 0 + v.getD (i + 1) 0 + EPSILON) := by
  subst hv
  exact objective_eq_sum v dx hdx

/-- C2 witness: the formula evaluated on the concrete profile [0, 3, 0]
with segment lengths [6, 6]. -/
theorem C2_objective_formula_witness :
    ([0, 3, 0] : List ℝ).length = 3 ∧ ([6, 6] : List ℝ).length = 3 - 1 ∧ 2 ≤ 3 ∧
    objective [0, 3, 0] [6, 6] = ∑ i in Finset.range (3 - 1),
      2 * ([6, 6] : List ℝ).getD i 0 /
        (([0, 3, 0] : List ℝ).getD i 0 + ([0, 3, 0] : List ℝ).getD (i + 1) 0 + EPSILON) :=
  ⟨by simp, by simp, by norm_num,
    C2_objective_formula 3 [0, 3, 0] [6, 6] (by simp) (by simp) (by norm_num)⟩

/-- C8 counterexample: with the merely non-negative segment lengths the
claim allows, increasing the interior speed of [0, 1, 0] to 2 over two
zero-length segments leaves the objective unchanged, so the objective is
not strictly decreasing in the interior speed there. -/
theorem C8_zero_length_counterexample :
    objective ([0, 2, 0] : List ℝ) ([0, 0] : List ℝ) =
      objective ([0, 1, 0] : List ℝ) ([0, 0] : List ℝ) := by
  norm_num [objective]

/-- C8 as amended: for every velocity profile with non-negative speeds and
strictly positive segment lengths, strictly increasing any single interior
speed strictly decreases the objective. -/
theorem C8_strict_decrease (v dx : List ℝ) (i : ℕ) (x : ℝ)
    (hlen : dx.length = v.length - 1)
    (hdx : ∀ d ∈ dx, 0 < d)
    (hv : ∀ s ∈ v, 0 ≤ s)
    (hi : 0 < i) (hi2 : i + 1 < v.length)
    (hx : v.getD i 0 < x) :
    objective (v.set i x) dx < objective v dx := by
  have hnn : ∀ j, 0 ≤ v.getD j 0 := getD_nonneg_of_forall v hv
  have hmono : ∀ j, v.getD j 0 ≤ (v.set i x).getD j 0 :=
    getD_set_le v i x (le_of_lt hx) hnn
  have hsetlen : dx.length = (v.set i x).length - 1 := by
    rw [List.length_set]; exact hlen
  rw [objective_eq_sum v dx hlen, objective_eq_sum (v.set i x) dx hsetlen,
    List.length_set]
  apply Finset.sum_lt_sum
  · intro k hk
    rw [Finset.mem_range] at hk
    have hdk : 0 < dx.getD k 0 := by
      have hkd : k < dx.length := by omega
      rw [List.getD_eq_getElem _ _ hkd]
      exact hdx _ (List.getElem_mem hkd)
    have hden : 0 < v.getD k 0 + v.getD (k + 1) 0 + EPSILON := by
      have := hnn k; have := hnn (k + 1); have := EPSILON_pos; linarith
    have hden2 : v.getD k 0 + v.getD (k + 1) 0 + EPSILON ≤
        (v.set i x).getD k 0 + (v.set i x).getD (k + 1) 0 + EPSILON := by
      have := hmono k; have := hmono (k + 1); linarith
    exact div_le_div_of_nonneg_left (by linarith) hden hden2
  · refine ⟨i, Finset.mem_range.mpr (by omega), ?_⟩
    have hdi : 0 < dx.getD i 0 := by
      have hkd : i < dx.length := by omega
      rw [List.getD_eq_getElem _ _ hkd]
      exact hdx _ (List.getElem_mem hkd)
    have hden : 0 < v.getD i 0 + v.getD (i + 1) 0 + EPSILON := by
      have := hnn i; have := hnn (i + 1); have := EPSILON_pos; linarith
    have hset1 : (v.set i x).getD i 0 = x := getD_set_self v i x (by omega)
    have hset2 : (v.set i x).getD (i + 1) 0 = v.getD (i + 1) 0 :=
      getD_set_ne v i (i + 1) x (by omega)
    have hden2 : v.getD i 0 + v.getD (i + 1) 0 + EPSILON <
        (v.set i x).getD i 0 + (v.set i x).getD (i + 1) 0 + EPSILON := by
      rw [hset1, hset2]; linarith
    exact div_lt_div_of_pos_left (by linarith) hden hden2

/-- C8 witness: increasing the interior speed of [0, 1, 0] to 2 over two
segments of length 100 strictly decreases the objective. -/
theorem C8_strict_decrease_witness :
    ([0, 1, 0] : List ℝ).getD 1 0 < 2 ∧
    objective (([0, 1, 0] : List ℝ).set 1 2) [100, 100] <
      objective [0, 1, 0] [100, 100] :=
  ⟨by norm_num, C8_strict_decrease [0, 1, 0] [100, 100] 1 2 (by simp)
    (by intro d hd; simp at hd; rcases hd with rfl | rfl <;> norm_num)
    (by intro s hs; simp at hs; rcases hs with rfl | rfl | rfl <;> norm_num)
    (by norm_num) (by norm_num) (by norm_num)⟩

/-- C9: for every waypoint count N >= 2, the solver bounds fix the first
and last speed to exactly (0, 0) and bound the N-2 interior speeds in
[0.01, MaxVelocity], and the initial guess has 0 at both ends and the
constant InitialGuessVelocity at every interior position. -/
theorem C9_bounds_initial_guess (N : ℕ) (hN : 2 ≤ N) :
    (get_bounds N).length = N ∧
    (get_bounds N).head? = some (0, 0) ∧
    (get_bounds N).getLast? = some (0, 0) ∧
    ((get_bounds N).drop 1).take (N - 2) =
      List.replicate (N - 2) ((0.01 : ℝ), MaxVelocity) ∧
    (initial_velocity_profile N).length = N ∧
    (initial_velocity_profile N).head? = some 0 ∧
    (initial_velocity_profile N).getLast? = some 0 ∧
    ((initial_velocity_profile N).drop 1).take (N - 2) =
      List.replicate (N - 2) InitialGuessVelocity := by
  refine ⟨?_, ?_, ?_, ?_, ?_, ?_, ?_, ?_⟩
  · simp only [get_bounds, List.length_append, List.length_replicate,
      List.length_cons, List.length_nil]
    omega
  · simp [get_bounds]
  · rw [get_bounds, List.getLast?_concat]
  · simp only [get_bounds, List.singleton_append, List.cons_append,
      List.drop_one, List.tail_cons]
    exact List.take_left' (by simp)
  · simp only [initial_velocity_profile, List.length_append, List.length_replicate,
      List.length_cons, List.length_nil]
    omega
  · simp [initial_velocity_profile]
  · rw [initial_velocity_profile, List.getLast?_concat]
  · simp only [initial_velocity_profile, List.singleton_append, List.cons_append,
      List.drop_one, List.tail_cons]
    exact List.take_left' (by simp)

/-- C9 witness: the bounds and initial guess for N = 4 waypoints. -/
theorem C9_bounds_initial_guess_witness :
    (get_bounds 4).length = 4 ∧
    (get_bounds 4).head? = some (0, 0) ∧
    (get_bounds 4).getLast? = some (0, 0) ∧
    ((get_bounds 4).drop 1).take (4 - 2) =
      List.replicate (4 - 2) ((0.01 : ℝ), MaxVelocity) ∧
    (initial_velocity_profile 4).length = 4 ∧
    (initial_velocity_profile 4).head? = some 0 ∧
    (initial_velocity_profile 4).getLast? = some 0 ∧
    ((initial_velocity_profile 4).drop 1).take (4 - 2) =
      List.replicate (4 - 2) InitialGuessVelocity :=
  C9_bounds_initial_guess 4 (by norm_num)

/-- C10: for identical per-segment net power, solar power and segment
times, the battery level sequence of the reporter (after its anchored
initial entry, before conversion to percentage) equals elementwise the
constraint evaluator battery trajectory shifted up by SafeBatteryLevel:
the difference of cumulative sums and the cumulative sum of differences
coincide. -/
theorem C10_battery_accumulation_equiv (P SolP dt : List ℝ) :
    reporter_battery_levels P SolP dt =
      (constraint_battery_profile P SolP dt).map (fun b => b + SafeBatteryLevel) := by
  apply List.ext_getElem
  · simp only [reporter_battery_levels, constraint_battery_profile, length_cumsum,
      List.length_zipWith, List.length_map]
    omega
  · intro n h1 h2
    have hn : n < min (min P.length SolP.length) dt.length := by
      simpa [reporter_battery_levels, length_cumsum, List.length_zipWith] using h1
    have hbP : ∀ j, j ≤ n → j < P.length := by intro j hj; omega
    have hbS : ∀ j, j ≤ n → j < SolP.length := by intro j hj; omega
    have hbT : ∀ j, j ≤ n → j < dt.length := by intro j hj; omega
    simp only [reporter_battery_levels, constraint_battery_profile]
    rw [List.getElem_map, List.getElem_map, List.getElem_map, List.getElem_map,
      List.getElem_zipWith]
    have hc1 : n < (cumsum (List.zipWith (fun p t => p * t / 3600) P dt)).length := by
      simp [length_cumsum, List.length_zipWith]; omega
    have hc2 : n < (cumsum (List.zipWith (fun s t => s * t / 3600) SolP dt)).length := by
      simp [length_cumsum, List.length_zipWith]; omega
    have hc3 : n < (cumsum (List.zipWith (fun d t => d * t)
        (List.zipWith (fun p s => p - s) P SolP) dt)).length := by
      simp [length_cumsum, List.length_zipWith]; omega
    rw [getElem_cumsum _ _ hc1, getElem_cumsum _ _ hc2, getElem_cumsum _ _ hc3]
    have e1 : ∀ j ∈ Finset.range (n + 1),
        (List.zipWith (fun p t => p * t / 3600) P dt).getD j 0 =
          P.getD j 0 * dt.getD j 0 / 3600 := by
      intro j hj
      rw [Finset.mem_range] at hj
      exact getD_zipWith _ _ _ _ (hbP j (by omega)) (hbT j (by omega))
    have e2 : ∀ j ∈ Finset.range (n + 1),
        (List.zipWith (fun s t => s * t / 3600) SolP dt).getD j 0 =
          SolP.getD j 0 * dt.getD j 0 / 3600 := by
      intro j hj
      rw [Finset.mem_range] at hj
      exact getD_zipWith _ _ _ _ (hbS j (by omega)) (hbT j (by omega))
    have e3 : ∀ j ∈ Finset.range (n + 1),
        (List.zipWith (fun d t => d * t)
          (List.zipWith (fun p s => p - s) P SolP) dt).getD j 0 =
          (P.getD j 0 - SolP.getD j 0) * dt.getD j 0 := by
      intro j hj
      rw [Finset.mem_range] at hj
      have hjP := hbP j (by omega)
      have hjS := hbS j (by omega)
      have hjT := hbT j (by omega)
      rw [getD_zipWith _ _ _ _ (by simp [List.length_zipWith]; omega) hjT,
        getD_zipWith _ _ _ _ hjP hjS]
    rw [Finset.sum_congr rfl e1, Finset.sum_congr rfl e2, Finset.sum_congr rfl e3]
    rw [Finset.sum_div, ← Finset.sum_sub_distrib]
    have e4 : ∀ j ∈ Finset.range (n + 1),
        P.getD j 0 * dt.getD j 0 / 3600 - SolP.getD j 0 * dt.getD j 0 / 3600 =
          (P.getD j 0 - SolP.getD j 0) * dt.getD j 0 / 3600 := by
      intro j _; ring
    rw [Finset.sum_congr rfl e4]
    ring

end Track

namespace Track

/-! Lemmas about the environment lookup. -/

lemma npGet_in_range (xs : List ℝ) (i : ℤ) (h0 : 0 ≤ i) (h1 : i < (xs.length : ℤ)) :
    npGet xs i = some (xs.getD i.toNat 0) := by
  have ht : i.toNat < xs.length := by omega
  rw [npGet, if_pos ⟨h0, h1⟩, List.getElem?_eq_getElem ht, List.getD_eq_getElem _ _ ht]

lemma mapM_singleton (f : ℝ → Option ℝ) (m : ℝ) :
    List.mapM f [m] = (f m).map (fun a => [a]) := by
  cases h : f m <;> simp [List.mapM, List.mapM.loop, h]

lemma mapM_loop_singleton (f : ℝ → Option ℝ) (m : ℝ) :
    List.mapM.loop f [m] [] = (f m).map (fun a => [a]) := by
  cases h : f m <;> simp [List.mapM.loop, h]

/-- C6: for a minute value m whose bucket lies inside the loaded series,
the solar lookup computes bucket = floor((m + INIT_TIME) / 5), indexes the
ghi series directly at that bucket and scales by PanelArea *
PanelEfficiency, and the wind lookup returns the (wind speed, wind
direction) pair stored at that bucket; no interpolation is involved. -/
theorem C6_bucket_lookup (env : EnvSeries) (m : ℝ)
    (h0 : 0 ≤ np_time_index m)
    (h1 : np_time_index m < (env.ghi.length : ℤ))
    (h2 : np_time_index m < (env.wind_speed.length : ℤ))
    (h3 : np_time_index m < (env.wind_direction.length : ℤ)) :
    STEP = 5 ∧
    np_time_index m = ⌊(m + INIT_TIME) / 5⌋ ∧
    get_solar_power env [m] =
      some [env.ghi.getD (np_time_index m).toNat 0 * (PanelArea * PanelEfficiency)] ∧
    get_wind_data env [m] =
      some ([env.wind_speed.getD (np_time_index m).toNat 0],
        [env.wind_direction.getD (np_time_index m).toNat 0]) := by
  refine ⟨rfl, rfl, ?_, ?_⟩
  · rw [get_solar_power]
    simp [mapM_singleton, mapM_loop_singleton, npGet_in_range _ _ h0 h1, NET_PANEL_FACTOR]
  · rw [get_wind_data]
    simp [mapM_singleton, mapM_loop_singleton, npGet_in_range _ _ h0 h2, npGet_in_range _ _ h0 h3]

/-- C6 witness: minute value -50 on a three-bucket series lands in bucket
2 and both lookups return the stored values of that bucket. -/
theorem C6_bucket_lookup_witness :
    (0 : ℤ) ≤ np_time_index (-50) ∧
    np_time_index (-50) < ((3 : ℕ) : ℤ) ∧
    (STEP = 5 ∧
      np_time_index (-50) = ⌊((-50 : ℝ) + INIT_TIME) / 5⌋ ∧
      get_solar_power ⟨[1, 2, 3], [4, 5, 6], [7, 8, 9]⟩ [-50] =
        some [([1, 2, 3] : List ℝ).getD (np_time_index (-50)).toNat 0 *
          (PanelArea * PanelEfficiency)] ∧
      get_wind_data ⟨[1, 2, 3], [4, 5, 6], [7, 8, 9]⟩ [-50] =
        some ([([4, 5, 6] : List ℝ).getD (np_time_index (-50)).toNat 0],
          [([7, 8, 9] : List ℝ).getD (np_time_index (-50)).toNat 0])) := by
  have hidx : np_time_index (-50) = 2 := by
    rw [np_time_index, INIT_TIME, StartTime, STEP, Int.floor_eq_iff]
    norm_num
  refine ⟨by rw [hidx]; norm_num, by rw [hidx]; norm_num, ?_⟩
  exact C6_bucket_lookup ⟨[1, 2, 3], [4, 5, 6], [7, 8, 9]⟩ (-50)
    (by rw [hidx]; norm_num) (by rw [hidx]; norm_num)
    (by rw [hidx]; norm_num) (by rw [hidx]; norm_num)

/-- C4: evaluation showing the claim fails on the code: minute value -70
on a five-bucket series produces bucket -2, which is outside the series
bounds, yet both lookups silently wrap around numpy-style and return the
values stored two entries from the end instead of failing. -/
theorem C4_wraparound_lookup :
    np_time_index (-70) = -2 ∧
    get_solar_power ⟨[10, 20, 30, 40, 50], [1, 2, 3, 4, 5], [6, 7, 8, 9, 11]⟩ [-70] =
      some [40 * NET_PANEL_FACTOR] ∧
    get_wind_data ⟨[10, 20, 30, 40, 50], [1, 2, 3, 4, 5], [6, 7, 8, 9, 11]⟩ [-70] =
      some ([4], [9]) := by
  have hidx : np_time_index (-70) = -2 := by
    rw [np_time_index, INIT_TIME, StartTime, STEP, Int.floor_eq_iff]
    norm_num
  have hg : npGet [10, 20, 30, 40, 50] (-2) = some 40 := by
    rw [npGet, if_neg (by norm_num), if_pos (by constructor <;> norm_num)]
    rfl
  have hw : npGet [1, 2, 3, 4, 5] (-2) = some 4 := by
    rw [npGet, if_neg (by norm_num), if_pos (by constructor <;> norm_num)]
    rfl
  have hd : npGet [6, 7, 8, 9, 11] (-2) = some 9 := by
    rw [npGet, if_neg (by norm_num), if_pos (by constructor <;> norm_num)]
    rfl
  refine ⟨hidx, ?_, ?_⟩
  · rw [get_solar_power]
    simp [mapM_singleton, mapM_loop_singleton, hidx, hg]
  · rw [get_wind_data]
    simp [mapM_singleton, mapM_loop_singleton, hidx, hw, hd]

end Track

namespace Track

/-! Lemmas about the thermal fixed-point loop. -/

lemma thermal_loop_singleton_not (p : ℝ × ℝ) (n : ℕ) (T : ℝ)
    (h : ¬ |(thermal_step p T).1 - T| < 0.001) :
    thermal_loop [p] (n + 1) [T] = thermal_loop [p] n [(thermal_step p T).1] := by
  rw [thermal_loop]
  simp only [List.zipWith, List.zip, List.zipWith_nil_right]
  rw [if_neg (by simpa using h), if_neg h]

lemma thermal_loop_singleton_yes (p : ℝ × ℝ) (n : ℕ) (T : ℝ)
    (h : |(thermal_step p T).1 - T| < 0.001) :
    thermal_loop [p] (n + 1) [T] = some [thermal_step p T] := by
  rw [thermal_loop]
  simp only [List.zipWith, List.zip, List.zipWith_nil_right]
  rw [if_pos (by simpa using h)]

lemma divergent_tou_eq : divergent_tou = 19921.885370925 := by
  rw [divergent_tou, _frictional_tou, _drag_coeff_wR2, _drag_coeff, R_Out, Mass,
    GravityAcc, ZeroSpeedCrr, CDA, AirDensity]
  norm_num

lemma thermal_step_divergent_base :
    10 ^ 7 ≤ (thermal_step (divergent_tou, 1000 ^ 2) 295).1 := by
  rw [thermal_step, divergent_tou_eq, Ta, R_Out]
  norm_num

lemma thermal_step_divergent_ge (T : ℝ) (hT : 10 ^ 7 ≤ T) :
    2 * T ≤ (thermal_step (divergent_tou, 1000 ^ 2) T).1 := by
  rw [thermal_step, divergent_tou_eq, Ta, R_Out]
  simp only
  have hTpos : (0 : ℝ) ≤ T := by norm_num at hT ⊢; linarith
  have hR : 0.0002 * T ≤ 0.00022425 * T - 0.00820525 := by norm_num at hT ⊢; linarith
  have hRpos : (0 : ℝ) < 0.00022425 * T - 0.00820525 := by nlinarith
  have hPe : (0 : ℝ) ≤ 9.602 * (10 : ℝ) ^ (-6 : ℤ) *
      ((1.6716 - 0.0006 * (295 + T)) / 0.2785) ^ 2 / (0.00022425 * T - 0.00820525) *
      1000 ^ 2 := by
    apply mul_nonneg _ (by norm_num)
    apply div_nonneg _ hRpos.le
    apply mul_nonneg (by norm_num) (sq_nonneg _)
  have hB : 0.0005 * T ≤ -(1.6716 - 0.0006 * (295 + T)) := by nlinarith
  have hB2 : (0.0005 * T) ^ 2 ≤ (1.6716 - 0.0006 * (295 + T)) ^ 2 := by
    calc (0.0005 * T) ^ 2 ≤ (-(1.6716 - 0.0006 * (295 + T))) ^ 2 :=
          pow_le_pow_left₀ (by positivity) hB 2
    _ = (1.6716 - 0.0006 * (295 + T)) ^ 2 := by ring
  have hchain : 2.5e-7 * T ^ 2 * (0.0002 * T) ≤
      (1.6716 - 0.0006 * (295 + T)) ^ 2 * (0.00022425 * T - 0.00820525) := by
    have e : (2.5e-7 : ℝ) * T ^ 2 = (0.0005 * T) ^ 2 := by ring
    rw [e]
    exact mul_le_mul hB2 hR (by positivity) (sq_nonneg _)
  have hPc : 0.018 * T ^ 3 ≤
      3 * (0.561 * (1.6716 - 0.0006 * (295 + T)) * 19921.885370925) ^ 2 *
        (0.00022425 * T - 0.00820525) := by
    nlinarith [hchain, sq_nonneg (1.6716 - 0.0006 * (295 + T)), hTpos, hRpos]
  have hcube : 10 ^ 14 * T ≤ T ^ 3 := by nlinarith [sq_nonneg (T - 10 ^ 7), hTpos, hT]
  nlinarith [hPc, hPe, hcube, hTpos]

lemma div_loop_none : ∀ (n : ℕ) (T : ℝ), 10 ^ 7 ≤ T →
    thermal_loop [(divergent_tou, 1000 ^ 2)] n [T] = none := by
  intro n
  induction n with
  | zero => intro T _; rfl
  | succ n ih =>
    intro T hT
    have hstep := thermal_step_divergent_ge T hT
    have hbig : (0.001 : ℝ) ≤ (thermal_step (divergent_tou, 1000 ^ 2) T).1 - T := by
      set A := (thermal_step (divergent_tou, 1000 ^ 2) T).1
      norm_num at hT; linarith
    have hnot : ¬ |(thermal_step (divergent_tou, 1000 ^ 2) T).1 - T| < 0.001 := by
      have h2 := le_trans hbig (le_abs_self _)
      set A := |(thermal_step (divergent_tou, 1000 ^ 2) T).1 - T|
      linarith
    rw [thermal_loop_singleton_not _ _ _ hnot]
    apply ih
    set A := (thermal_step (divergent_tou, 1000 ^ 2) T).1
    norm_num at hT ⊢
    linarith

lemma div_loop_start : ∀ fuel : ℕ,
    thermal_loop [(divergent_tou, 1000 ^ 2)] fuel [295] = none := by
  intro fuel
  match fuel with
  | 0 => rfl
  | n + 1 =>
    have hbase := thermal_step_divergent_base
    have hbig : (0.001 : ℝ) ≤ (thermal_step (divergent_tou, 1000 ^ 2) 295).1 - 295 := by
      set A := (thermal_step (divergent_tou, 1000 ^ 2) 295).1
      norm_num at hbase ⊢; linarith
    have hnot : ¬ |(thermal_step (divergent_tou, 1000 ^ 2) 295).1 - 295| < 0.001 := by
      have h2 := le_trans hbig (le_abs_self _)
      set A := |(thermal_step (divergent_tou, 1000 ^ 2) 295).1 - 295|
      linarith
    rw [thermal_loop_singleton_not _ _ _ hnot]
    exact div_loop_none n _ hbase

/-- C3: evaluation showing the claim fails on the code: on the single
segment with speed 1000, zero acceleration, zero slope and zero wind, the
winding temperature iteration diverges, the convergence test never passes,
and since the source while True loop has no iteration cap the evaluation
never terminates: the fuel-indexed embedding returns none, meaning the
loop is still running, for every fuel value, and no fatal error is ever
raised. -/
theorem C3_thermal_loop_never_returns (fuel : ℕ) :
    calculate_power [1000] [0] [0] [0] [0] [0] fuel = none := by
  have htou : tou_list [0] [(1000 : ℝ) ^ 2] = [divergent_tou] := by
    simp [tou_list, drag_tou_list, divergent_tou, Real.cos_zero]
  simp only [calculate_power, List.map_cons, List.map_nil, htou, List.zip_cons_cons,
    List.zip_nil_right, Ta, div_loop_start fuel]

end Track

namespace Track

lemma getD_map_clip_nonneg (L : List ℝ) (i : ℕ) :
    0 ≤ (L.map (fun x => max x 0)).getD i 0 := by
  rcases lt_or_le i (L.map (fun x => max x 0)).length with hi | hi
  · rw [List.getD_eq_getElem _ _ hi, List.getElem_map]
    exact le_max_right _ _
  · rw [List.getD_eq_default _ _ hi]

lemma calculate_power_clip_shape (speed acceleration slope dir ws wd : List ℝ)
    (fuel : ℕ) (res : List ℝ × List ℝ)
    (h : calculate_power speed acceleration slope dir ws wd fuel = some res) :
    ∃ L : List ℝ, res.1 = L.map (fun x => max x 0) := by
  simp only [calculate_power] at h
  cases hml : thermal_loop ((tou_list slope (List.map (fun s => s ^ 2) speed)).zip
      (List.map (fun s => s ^ 2) speed)) fuel
      (List.map (fun x => Ta) (tou_list slope (List.map (fun s => s ^ 2) speed))) with
  | none => rw [hml] at h; exact absurd h (by simp)
  | some r =>
    rw [hml] at h
    simp only [Option.some.injEq] at h
    subst h
    exact ⟨_, rfl⟩

/-- C5: whenever the power model returns, every entry of its first
component (net power) is non-negative: the source clips
P_out + Pw + Pc + Pe + P_acc at zero. -/
theorem C5_net_power_nonneg (speed acceleration slope dir ws wd : List ℝ)
    (fuel : ℕ) (res : List ℝ × List ℝ)
    (h : calculate_power speed acceleration slope dir ws wd fuel = some res)
    (i : ℕ) : 0 ≤ res.1.getD i 0 := by
  obtain ⟨L, hL⟩ := calculate_power_clip_shape speed acceleration slope dir ws wd fuel res h
  rw [hL]
  exact getD_map_clip_nonneg L i

lemma thermal_step_zero : thermal_step (0, 0 ^ 2) Ta = (Ta, 0, 0) := by
  rw [thermal_step]
  norm_num

lemma eval_power_pihalf :
    calculate_power [0] [0] [Real.pi / 2] [0] [0] [0] 1 = some ([0], [0]) := by
  have htou : tou_list [Real.pi / 2] [(0 : ℝ) ^ 2] = [0] := by
    simp [tou_list, drag_tou_list, Real.cos_pi_div_two]
  have hloop : thermal_loop [((0 : ℝ), (0 : ℝ) ^ 2)] 1 [Ta] = some [(Ta, 0, 0)] := by
    rw [thermal_loop_singleton_yes _ _ _ (by rw [thermal_step_zero]; norm_num),
      thermal_step_zero]
  simp only [calculate_power, List.map_cons, List.map_nil, htou, List.zip_cons_cons,
    List.zip_nil_right, hloop]
  norm_num

/-- C5 witness: the degenerate zero-speed, zero-acceleration segment with
slope pi/2 converges in one pass and yields net power exactly 0, which is
non-negative. -/
theorem C5_net_power_nonneg_witness :
    calculate_power [0] [0] [Real.pi / 2] [0] [0] [0] 1 = some ([0], [0]) ∧
    (0 : ℝ) ≤ ((([0], [0]) : List ℝ × List ℝ)).1.getD 0 0 :=
  ⟨eval_power_pihalf,
    C5_net_power_nonneg [0] [0] [Real.pi / 2] [0] [0] [0] 1 ([0], [0]) eval_power_pihalf 0⟩

/-- C7: the wheel torque used by the power model is the frictional torque
times cos(slope) plus a drag torque proportional to speed squared only,
and the wind speed and wind direction arguments have no effect on the
result of the power model at all: the wind-coupled drag cross term of the
commented-out source line is not part of the executed computation. -/
theorem C7_wind_independent_torque (speed acceleration slope dir ws wd ws2 wd2 : List ℝ)
    (fuel : ℕ) :
    tou_list slope (speed.map (fun s => s ^ 2)) =
      List.zipWith (fun sl s => _frictional_tou * Real.cos sl + _drag_coeff_wR2 * s ^ 2)
        slope speed ∧
    calculate_power speed acceleration slope dir ws wd fuel =
      calculate_power speed acceleration slope dir ws2 wd2 fuel := by
  constructor
  · rw [tou_list, drag_tou_list, List.map_map, List.zipWith_map_right]
    rfl
  · rfl

end Track

namespace Track

lemma constraint_battery_profile_eq_claim (P SolP dt : List ℝ)
    (hlP : P.length = dt.length) (hlS : SolP.length = dt.length) :
    constraint_battery_profile P SolP dt =
      (List.range dt.length).map (fun i =>
        InitialBatteryCapacity -
          (∑ j in Finset.range (i + 1),
            (P.getD j 0 - SolP.getD j 0) * dt.getD j 0 / 3600) -
          BatteryCapacity * DeepDischargeCap) := by
  apply List.ext_getElem
  · simp only [constraint_battery_profile, List.length_map, length_cumsum,
      List.length_zipWith, List.length_range]
    omega
  · intro n h1 h2
    have hn : n < dt.length := by
      simpa using h2
    simp only [constraint_battery_profile]
    rw [List.getElem_map, List.getElem_map, List.getElem_map, List.getElem_range]
    have hc : n < (cumsum (List.zipWith (fun d t => d * t)
        (List.zipWith (fun p s => p - s) P SolP) dt)).length := by
      simp only [length_cumsum, List.length_zipWith]
      omega
    rw [getElem_cumsum _ _ hc]
    have e3 : ∀ j ∈ Finset.range (n + 1),
        (List.zipWith (fun d t => d * t)
          (List.zipWith (fun p s => p - s) P SolP) dt).getD j 0 =
          (P.getD j 0 - SolP.getD j 0) * dt.getD j 0 := by
      intro j hj
      rw [Finset.mem_range] at hj
      have hjT : j < dt.length := by omega
      rw [getD_zipWith _ _ _ _ (by simp only [List.length_zipWith]; omega) hjT,
        getD_zipWith _ _ _ _ (by omega) (by omega)]
    rw [Finset.sum_congr rfl e3, SafeBatteryLevel, Finset.sum_div]

/-- C1: under the well-formedness hypotheses that wind, power and solar
all evaluate (with per-segment lists as long as the segment count), the
feasibility evaluation returns exactly the pair (battery margin, power
margin) worded in the claim: the minimum over segments of the initial
battery charge minus the running cumulative sum of
(net_power - solar_power) * segment_time / 3600 minus the safety reserve
BatteryCapacity * DeepDischargeCap, and MaxCurrent * BusVoltage minus the
maximum net power. -/
theorem C1_feasibility_margins (env : EnvSeries) (fuel : ℕ)
    (v dx ds dir ws wd : List ℝ) (P : List ℝ × List ℝ) (SolP : List ℝ)
    (hw : get_wind_data env (seg_minutes v dx) = some (ws, wd))
    (hp : calculate_power (avg_speed_list v) (seg_acceleration v dx) ds dir
      ws wd fuel = some P)
    (hs : get_solar_power env (seg_minutes v dx) = some SolP)
    (hlP : P.1.length = (seg_dt v dx).length)
    (hlS : SolP.length = (seg_dt v dx).length) :
    battery_acc_constraint_func env fuel v dx ds dir =
      some (claim_battery_margin P.1 SolP (seg_dt v dx), claim_power_margin P.1) := by
  rw [battery_acc_constraint_func, hw]
  simp only [Option.bind_eq_bind, Option.some_bind]
  rw [hp]
  simp only [Option.bind_eq_bind, Option.some_bind]
  rw [hs]
  simp only [Option.bind_eq_bind, Option.some_bind, Option.pure_def,
    Option.some.injEq, Prod.mk.injEq]
  constructor
  · rw [claim_battery_margin,
      constraint_battery_profile_eq_claim P.1 SolP (seg_dt v dx) hlP hlS]
  · rw [claim_power_margin, MaxPower]

end Track

namespace Track

/-! Concrete evaluation of the full constraint pipeline on a degenerate
two-waypoint route: resting profile [0, 0], one tiny segment, slope pi/2,
and an environment of 13 zero-valued five-minute buckets. -/

/-- Environment of 13 zero buckets used for concrete evaluations. -/
noncomputable def envW : EnvSeries :=
  ⟨List.replicate 13 0, List.replicate 13 0, List.replicate 13 0⟩

lemma eval_seg_dt : seg_dt [0, 0] [3 / 10 ^ 7] = [30] := by
  rw [seg_dt, avg_speed_list]
  simp [EPSILON]
  norm_num

lemma eval_seg_minutes : seg_minutes [0, 0] [3 / 10 ^ 7] = [1 / 2] := by
  rw [seg_minutes, eval_seg_dt]
  simp [cumsum, cumsumFrom]
  norm_num

lemma eval_np_idx : np_time_index (1 / 2) = 12 := by
  rw [np_time_index, INIT_TIME, StartTime, STEP, Int.floor_eq_iff]
  norm_num

lemma eval_npGet_rep : npGet (List.replicate 13 (0 : ℝ)) 12 = some 0 := by
  rw [npGet_in_range _ _ (by norm_num) (by simp)]
  simp [List.getD]

lemma eval_wind : get_wind_data envW [1 / 2] = some ([0], [0]) := by
  rw [get_wind_data]
  simp only [envW, mapM_singleton]
  rw [eval_np_idx, eval_npGet_rep]
  rfl

lemma eval_solar : get_solar_power envW [1 / 2] = some [0] := by
  rw [get_solar_power]
  simp only [envW, mapM_singleton]
  rw [eval_np_idx, eval_npGet_rep]
  simp

lemma eval_avg : avg_speed_list [0, 0] = [0] := by
  rw [avg_speed_list]
  norm_num

lemma eval_acc : seg_acceleration [0, 0] [3 / 10 ^ 7] = [0] := by
  rw [seg_acceleration, eval_seg_dt]
  simp

lemma eval_hp : calculate_power (avg_speed_list [0, 0])
    (seg_acceleration [0, 0] [3 / 10 ^ 7]) [Real.pi / 2] [0] [0] [0] 1 =
    some (([0], [0]) : List ℝ × List ℝ) := by
  rw [eval_avg, eval_acc]
  exact eval_power_pihalf

/-- C1 witness: on the concrete two-waypoint route the wind, power and
solar evaluations all succeed and the feasibility evaluation returns the
claimed pair of margins. -/
theorem C1_feasibility_margins_witness :
    get_wind_data envW (seg_minutes [0, 0] [3 / 10 ^ 7]) = some ([0], [0]) ∧
    calculate_power (avg_speed_list [0, 0]) (seg_acceleration [0, 0] [3 / 10 ^ 7])
      [Real.pi / 2] [0] [0] [0] 1 = some (([0], [0]) : List ℝ × List ℝ) ∧
    get_solar_power envW (seg_minutes [0, 0] [3 / 10 ^ 7]) = some [0] ∧
    battery_acc_constraint_func envW 1 [0, 0] [3 / 10 ^ 7] [Real.pi / 2] [0] =
      some (claim_battery_margin [0] [0] (seg_dt [0, 0] [3 / 10 ^ 7]),
        claim_power_margin [0]) := by
  have h1 : get_wind_data envW (seg_minutes [0, 0] [3 / 10 ^ 7]) = some ([0], [0]) := by
    rw [eval_seg_minutes]; exact eval_wind
  have h2 := eval_hp
  have h3 : get_solar_power envW (seg_minutes [0, 0] [3 / 10 ^ 7]) = some [0] := by
    rw [eval_seg_minutes]; exact eval_solar
  refine ⟨h1, h2, h3, ?_⟩
  exact C1_feasibility_margins envW 1 [0, 0] [3 / 10 ^ 7] [Real.pi / 2] [0] [0] [0]
    ([0], [0]) [0] h1 h2 h3 (by rw [eval_seg_dt]; rfl) (by rw [eval_seg_dt]; rfl)

end Track
